import Mathlib

/-!
# Verification of the qcsys device module

A shallow embedding of `qcsys/devices/fluxonium.py` and
`qcsys/devices/transmon_single_charge_basis.py`, together with proofs of the
specified properties.  Machine floating-point arithmetic is modelled by exact
real/complex arithmetic; matrices are `Matrix (Fin n) (Fin n) ℂ`.
-/

open NormedSpace Matrix

noncomputable section

namespace jqt

/-- Embeds `jqt.identity(N)`: the `N × N` identity matrix. -/
def identity (N : ℕ) : Matrix (Fin N) (Fin N) ℂ := 1

/-- Embeds `jqt.destroy(N)`: the bosonic annihilation operator, with entry
`√j` at position `(i, j)` whenever `j = i + 1`. -/
def destroy (N : ℕ) : Matrix (Fin N) (Fin N) ℂ :=
  Matrix.of fun i j => if (i : ℕ) + 1 = (j : ℕ) then ((Real.sqrt (j : ℕ) : ℝ) : ℂ) else 0

/-- Embeds `jqt.create(N)`: the bosonic creation operator, with entry
`√i` at position `(i, j)` whenever `i = j + 1`. -/
def create (N : ℕ) : Matrix (Fin N) (Fin N) ℂ :=
  Matrix.of fun i j => if (j : ℕ) + 1 = (i : ℕ) then ((Real.sqrt (i : ℕ) : ℝ) : ℂ) else 0

/-- Embeds `jqt.cosm(A)`: the matrix cosine, `(e^{iA} + e^{-iA}) / 2`. -/
def cosm {N : ℕ} (A : Matrix (Fin N) (Fin N) ℂ) : Matrix (Fin N) (Fin N) ℂ :=
  ((1 : ℂ) / 2) • (exp ℂ (Complex.I • A) + exp ℂ (-(Complex.I • A)))

/-- Embeds `jqt.sinm(A)`: the matrix sine, `(e^{iA} - e^{-iA}) / (2i)`. -/
def sinm {N : ℕ} (A : Matrix (Fin N) (Fin N) ℂ) : Matrix (Fin N) (Fin N) ℂ :=
  (-(Complex.I) / 2) • (exp ℂ (Complex.I • A) - exp ℂ (-(Complex.I • A)))

end jqt

/-- Modelled from the spec: the `HamiltonianTypes` enum selector supplied by the
external `qcsys.devices.base` module (not part of the two source files).  The
spec names the selector values `linear` and `full` and mentions a further
unhandled value (`bare`) reaching the silent fallthrough in `potential`. -/
inductive HamiltonianTypes
  | linear
  | full
  | bare
deriving DecidableEq

/-- The `Fluxonium` device: truncation size `N_pre_diag`, the parameter mapping
(`Ec`, `El`, `Ej`, `phi_ext`), and the Hamiltonian-type selector `hamiltonian`
supplied by the `FluxDevice` base contract. -/
structure Fluxonium where
  N_pre_diag : ℕ
  Ec : ℝ
  El : ℝ
  Ej : ℝ
  phi_ext : ℝ
  hamiltonian : HamiltonianTypes

namespace Fluxonium

/-- Embeds `Fluxonium.n_zpf`: `(El / (32.0 * Ec)) ** 0.25`. -/
def n_zpf (f : Fluxonium) : ℝ := (f.El / (32.0 * f.Ec)) ^ ((0.25 : ℝ))

/-- Embeds `Fluxonium.phi_zpf`: `(2 * Ec / El) ** 0.25`. -/
def phi_zpf (f : Fluxonium) : ℝ := (2 * f.Ec / f.El) ^ ((0.25 : ℝ))

/-- Embeds `Fluxonium.get_linear_ω`: `sqrt(8 * Ec * El)`. -/
def get_linear_omega (f : Fluxonium) : ℝ := Real.sqrt (8 * f.Ec * f.El)

/-- The operator dictionary built by `Fluxonium.common_ops` (the cached
`linear_ops` of the base contract). -/
structure Ops (N : ℕ) where
  id : Matrix (Fin N) (Fin N) ℂ
  a : Matrix (Fin N) (Fin N) ℂ
  a_dag : Matrix (Fin N) (Fin N) ℂ
  phi : Matrix (Fin N) (Fin N) ℂ
  n : Matrix (Fin N) (Fin N) ℂ
  cos_phi_half : Matrix (Fin N) (Fin N) ℂ
  sin_phi_half : Matrix (Fin N) (Fin N) ℂ

/-- Embeds `Fluxonium.common_ops`, written in the linear basis. -/
def common_ops (f : Fluxonium) : Ops f.N_pre_diag :=
  let N := f.N_pre_diag
  let a := jqt.destroy N
  let a_dag := jqt.create N
  let phi := ((f.phi_zpf : ℝ) : ℂ) • (a + a_dag)
  { id := jqt.identity N
    a := a
    a_dag := a_dag
    phi := phi
    n := Complex.I • (((f.n_zpf : ℝ) : ℂ) • (a_dag - a))
    cos_phi_half := jqt.cosm (((1 : ℂ) / 2) • phi)
    sin_phi_half := jqt.sinm (((1 : ℂ) / 2) • phi) }

/-- Embeds `Fluxonium.get_H_linear`: `w * (a_dag @ a + 0.5 * id)`. -/
def get_H_linear (f : Fluxonium) : Matrix (Fin f.N_pre_diag) (Fin f.N_pre_diag) ℂ :=
  ((f.get_linear_omega : ℝ) : ℂ) •
    (f.common_ops.a_dag * f.common_ops.a + ((0.5 : ℂ)) • f.common_ops.id)

/-- Embeds `Fluxonium.get_H_full`: the full Hamiltonian in the linear basis,
`get_H_linear() - Ej * (cosm(phi) * cos(2π φ_ext) + sinm(phi) * sin(2π φ_ext))`. -/
def get_H_full (f : Fluxonium) : Matrix (Fin f.N_pre_diag) (Fin f.N_pre_diag) ℂ :=
  let op_cos_phi := jqt.cosm f.common_ops.phi
  let op_sin_phi := jqt.sinm f.common_ops.phi
  let Hcos := ((Real.cos (2.0 * Real.pi * f.phi_ext) : ℝ) : ℂ) • op_cos_phi
    + ((Real.sin (2.0 * Real.pi * f.phi_ext) : ℝ) : ℂ) • op_sin_phi
  f.get_H_linear - ((f.Ej : ℝ) : ℂ) • Hcos

/-- Embeds `Fluxonium.potential`: classical potential energy at flux point `phi`.
The Python function returns implicitly (`None`) when the selector is neither
`linear` nor `full`; that silent fallthrough is `Option.none` here. -/
def potential (f : Fluxonium) (phi : ℝ) : Option ℝ :=
  let V_linear := 0.5 * f.El * (2 * Real.pi * phi) ^ 2
  if f.hamiltonian = HamiltonianTypes.linear then
    some V_linear
  else
    let V_nonlinear := -f.Ej * Real.cos (2.0 * Real.pi * (phi - f.phi_ext))
    if f.hamiltonian = HamiltonianTypes.full then
      some (V_linear + V_nonlinear)
    else
      none

end Fluxonium

/-- Python errors that the transmon module can raise.  `typeError` models the
`TypeError` produced when a non-callable object is called; `assertionError`
models a failed `assert`; `notImplementedError` is the standard
unsupported-operation exception `NotImplementedError`. -/
inductive PyError
  | assertionError
  | typeError
  | notImplementedError
deriving DecidableEq

/-- The `SingleChargeTransmon` device: truncation size `N`, charge cutoff
`N_max_charge`, the parameter mapping (`Ec`, `Ej`, `ng`), and the cached
`eig_systems["vecs"]` matrix produced by the external diagonalization
collaborator of the `Device` base contract. -/
structure SingleChargeTransmon where
  N : ℕ
  N_max_charge : ℕ
  Ec : ℝ
  Ej : ℝ
  ng : ℝ
  vecs : Matrix (Fin (2 * N_max_charge + 1)) (Fin (2 * N_max_charge + 1)) ℂ

namespace SingleChargeTransmon

/-- Embeds `build_n_op`: `jnp.diag(jnp.arange(-N_max_charge, N_max_charge + 1))`,
the diagonal charge operator with entry `i - N_max_charge` at position `i`. -/
def build_n_op (t : SingleChargeTransmon) :
    Matrix (Fin (2 * t.N_max_charge + 1)) (Fin (2 * t.N_max_charge + 1)) ℂ :=
  Matrix.diagonal fun i => (((i : ℕ) : ℂ) - (t.N_max_charge : ℂ))

/-- Embeds `build_cos_phi_op`: `0.5 * (jnp.eye(2M+1, k=2) + jnp.eye(2M+1, k=-2))`,
where `jnp.eye(n, k)` has a `1` at `(i, j)` iff `j = i + k`. -/
def build_cos_phi_op (t : SingleChargeTransmon) :
    Matrix (Fin (2 * t.N_max_charge + 1)) (Fin (2 * t.N_max_charge + 1)) ℂ :=
  ((0.5 : ℂ)) •
    (Matrix.of (fun i j : Fin (2 * t.N_max_charge + 1) =>
        if (i : ℕ) + 2 = (j : ℕ) then (1 : ℂ) else 0)
      + Matrix.of (fun i j : Fin (2 * t.N_max_charge + 1) =>
        if (j : ℕ) + 2 = (i : ℕ) then (1 : ℂ) else 0))

/-- Embeds `build_cos_phi_2_op`: `0.5 * (jnp.eye(2M+1, k=1) + jnp.eye(2M+1, k=-1))`. -/
def build_cos_phi_2_op (t : SingleChargeTransmon) :
    Matrix (Fin (2 * t.N_max_charge + 1)) (Fin (2 * t.N_max_charge + 1)) ℂ :=
  ((0.5 : ℂ)) •
    (Matrix.of (fun i j : Fin (2 * t.N_max_charge + 1) =>
        if (i : ℕ) + 1 = (j : ℕ) then (1 : ℂ) else 0)
      + Matrix.of (fun i j : Fin (2 * t.N_max_charge + 1) =>
        if (j : ℕ) + 1 = (i : ℕ) then (1 : ℂ) else 0))

/-- Embeds `build_sin_phi_2_op`: `0.5j * (jnp.eye(2M+1, k=1) - jnp.eye(2M+1, k=-1))`. -/
def build_sin_phi_2_op (t : SingleChargeTransmon) :
    Matrix (Fin (2 * t.N_max_charge + 1)) (Fin (2 * t.N_max_charge + 1)) ℂ :=
  ((0.5 : ℂ) * Complex.I) •
    (Matrix.of (fun i j : Fin (2 * t.N_max_charge + 1) =>
        if (i : ℕ) + 1 = (j : ℕ) then (1 : ℂ) else 0)
      - Matrix.of (fun i j : Fin (2 * t.N_max_charge + 1) =>
        if (j : ℕ) + 1 = (i : ℕ) then (1 : ℂ) else 0))

/-- The operator dictionary built by `SingleChargeTransmon.common_ops`. -/
structure Ops (M : ℕ) where
  n : Matrix (Fin (2 * M + 1)) (Fin (2 * M + 1)) ℂ
  cos_phi : Matrix (Fin (2 * M + 1)) (Fin (2 * M + 1)) ℂ
  cos_phi_half : Matrix (Fin (2 * M + 1)) (Fin (2 * M + 1)) ℂ
  sin_phi_half : Matrix (Fin (2 * M + 1)) (Fin (2 * M + 1)) ℂ

/-- Embeds `common_ops`: asserts `N <= 2 * N_max_charge + 1` (an `AssertionError` when
violated), then builds the operator dictionary in the single-charge basis. -/
def common_ops (t : SingleChargeTransmon) : Except PyError (Ops t.N_max_charge) :=
  if t.N ≤ 2 * t.N_max_charge + 1 then
    Except.ok
      { n := t.build_n_op
        cos_phi := t.build_cos_phi_op
        cos_phi_half := t.build_cos_phi_2_op
        sin_phi_half := t.build_sin_phi_2_op }
  else
    Except.error PyError.assertionError

/-- Embeds `get_H_linear`: the body is `raise NotImplemented("...")`.  In Python,
`NotImplemented` is the non-callable comparison sentinel, not the exception
class `NotImplementedError`; evaluating `NotImplemented("...")` therefore
raises `TypeError` before the `raise` statement ever gets an exception object.
The call thus always fails, with `TypeError`. -/
def get_H_linear (t : SingleChargeTransmon) :
    Except PyError (Matrix (Fin (2 * t.N_max_charge + 1)) (Fin (2 * t.N_max_charge + 1)) ℂ) :=
  Except.error PyError.typeError

/-- Embeds `get_H_full`: `jnp.diag(Ec * (arange(-M, M+1) - 2*ng)**2) - Ej * cos(φ)`
in the single-charge basis. -/
def get_H_full (t : SingleChargeTransmon) :
    Matrix (Fin (2 * t.N_max_charge + 1)) (Fin (2 * t.N_max_charge + 1)) ℂ :=
  Matrix.diagonal (fun i : Fin (2 * t.N_max_charge + 1) =>
      ((t.Ec : ℝ) : ℂ) * ((((i : ℕ) : ℂ) - (t.N_max_charge : ℂ)) - 2 * ((t.ng : ℝ) : ℂ)) ^ 2)
    - ((t.Ej : ℝ) : ℂ) • t.build_cos_phi_op

/-- The number of columns kept by the slice `eig_systems["vecs"][:, :N]`:
NumPy slicing clips `N` to the actual column count `2 * N_max_charge + 1`. -/
def truncDim (t : SingleChargeTransmon) : ℕ := min t.N (2 * t.N_max_charge + 1)

/-- Embeds `get_op_in_H_eigenbasis(op)`: keep the first `N` eigenvectors and project,
`evecs[:, :N]ᴴ · op · evecs[:, :N]`. -/
def get_op_in_H_eigenbasis (t : SingleChargeTransmon)
    (op : Matrix (Fin (2 * t.N_max_charge + 1)) (Fin (2 * t.N_max_charge + 1)) ℂ) :
    Matrix (Fin t.truncDim) (Fin t.truncDim) ℂ :=
  let evecs : Matrix (Fin (2 * t.N_max_charge + 1)) (Fin t.truncDim) ℂ :=
    t.vecs.submatrix id (Fin.castLE (min_le_right t.N (2 * t.N_max_charge + 1)))
  evecs.conjTranspose * (op * evecs)

end SingleChargeTransmon

/-- A sample fluxonium with `Ec = 1`, `El = 4` (the literal numeric check of
the spec). -/
def sampleFlux : Fluxonium :=
  { N_pre_diag := 3, Ec := 1, El := 4, Ej := 1, phi_ext := 0
    hamiltonian := HamiltonianTypes.linear }

/-- A sample fluxonium with the `full` Hamiltonian selector. -/
def sampleFluxFull : Fluxonium :=
  { N_pre_diag := 3, Ec := 1, El := 4, Ej := 1, phi_ext := 0
    hamiltonian := HamiltonianTypes.full }

/-- A sample transmon violating the truncation precondition
(`N = 5 > 3 = 2 * N_max_charge + 1`). -/
def sampleBad : SingleChargeTransmon :=
  { N := 5, N_max_charge := 1, Ec := 1, Ej := 1, ng := 0, vecs := 1 }

/-- A sample transmon satisfying the truncation precondition
(`N = 3 ≤ 3 = 2 * N_max_charge + 1`). -/
def sampleGood : SingleChargeTransmon :=
  { N := 3, N_max_charge := 1, Ec := 1, Ej := 1, ng := 0, vecs := 1 }

/-- A one-dimensional sample transmon whose cached eigenvector matrix is the
identity (which has orthonormal columns). -/
def sampleTrivial : SingleChargeTransmon :=
  { N := 1, N_max_charge := 0, Ec := 1, Ej := 1, ng := 0, vecs := 1 }

/-! ## Helper lemmas -/

theorem conj_half : (starRingEnd ℂ) (0.5 : ℂ) = 0.5 := by
  norm_num [Complex.conj_ofNat]

theorem jqt.create_eq_conjTranspose (N : ℕ) : jqt.create N = (jqt.destroy N)ᴴ := by
  ext i j
  simp [jqt.create, jqt.destroy, Matrix.conjTranspose_apply, apply_ite (star : ℂ → ℂ),
    Complex.star_def, Complex.conj_ofReal]

theorem jqt.cosm_conjTranspose {N : ℕ} (A : Matrix (Fin N) (Fin N) ℂ) (h : Aᴴ = A) :
    (jqt.cosm A)ᴴ = jqt.cosm A := by
  have h1 : (Complex.I • A)ᴴ = -(Complex.I • A) := by
    rw [Matrix.conjTranspose_smul, h, Complex.star_def, Complex.conj_I, neg_smul]
  have h2 : (-(Complex.I • A))ᴴ = Complex.I • A := by
    rw [Matrix.conjTranspose_neg, h1, neg_neg]
  unfold jqt.cosm
  rw [Matrix.conjTranspose_smul, Matrix.conjTranspose_add,
    ← Matrix.exp_conjTranspose, ← Matrix.exp_conjTranspose, h1, h2]
  have h3 : star ((1 : ℂ) / 2) = (1 : ℂ) / 2 := by
    simp
  rw [h3, add_comm]

theorem jqt.sinm_conjTranspose {N : ℕ} (A : Matrix (Fin N) (Fin N) ℂ) (h : Aᴴ = A) :
    (jqt.sinm A)ᴴ = jqt.sinm A := by
  have h1 : (Complex.I • A)ᴴ = -(Complex.I • A) := by
    rw [Matrix.conjTranspose_smul, h, Complex.star_def, Complex.conj_I, neg_smul]
  have h2 : (-(Complex.I • A))ᴴ = Complex.I • A := by
    rw [Matrix.conjTranspose_neg, h1, neg_neg]
  unfold jqt.sinm
  rw [Matrix.conjTranspose_smul, Matrix.conjTranspose_sub,
    ← Matrix.exp_conjTranspose, ← Matrix.exp_conjTranspose, h1, h2]
  have h3 : star (-(Complex.I) / 2) = Complex.I / 2 := by
    simp [Complex.star_def]
  rw [h3, ← neg_sub (exp ℂ (Complex.I • A)) (exp ℂ (-(Complex.I • A)))]
  rw [smul_neg, ← neg_smul, neg_div]

theorem Fluxonium.common_ops_a (f : Fluxonium) : f.common_ops.a = jqt.destroy f.N_pre_diag := rfl

theorem Fluxonium.common_ops_a_dag (f : Fluxonium) :
    f.common_ops.a_dag = jqt.create f.N_pre_diag := rfl

theorem Fluxonium.common_ops_id (f : Fluxonium) : f.common_ops.id = 1 := rfl

theorem Fluxonium.common_ops_phi (f : Fluxonium) :
    f.common_ops.phi =
      ((f.phi_zpf : ℝ) : ℂ) • (jqt.destroy f.N_pre_diag + jqt.create f.N_pre_diag) := rfl

theorem Fluxonium.phi_conjTranspose (f : Fluxonium) :
    (f.common_ops.phi)ᴴ = f.common_ops.phi := by
  rw [Fluxonium.common_ops_phi, Matrix.conjTranspose_smul, Matrix.conjTranspose_add,
    jqt.create_eq_conjTranspose, Matrix.conjTranspose_conjTranspose]
  rw [Complex.star_def, Complex.conj_ofReal, add_comm]

theorem Fluxonium.H_linear_conjTranspose (f : Fluxonium) :
    (f.get_H_linear)ᴴ = f.get_H_linear := by
  rw [Fluxonium.get_H_linear]
  rw [Matrix.conjTranspose_smul, Matrix.conjTranspose_add, Matrix.conjTranspose_mul,
    Matrix.conjTranspose_smul, Fluxonium.common_ops_a, Fluxonium.common_ops_a_dag,
    Fluxonium.common_ops_id, jqt.create_eq_conjTranspose, Matrix.conjTranspose_conjTranspose]
  simp [Complex.star_def, Complex.conj_ofReal, Complex.conj_ofNat, conj_half]

theorem Fluxonium.H_full_conjTranspose (f : Fluxonium) :
    (f.get_H_full)ᴴ = f.get_H_full := by
  rw [Fluxonium.get_H_full]
  simp only [Matrix.conjTranspose_sub, Matrix.conjTranspose_smul, Matrix.conjTranspose_add]
  rw [jqt.cosm_conjTranspose _ (Fluxonium.phi_conjTranspose f),
    jqt.sinm_conjTranspose _ (Fluxonium.phi_conjTranspose f),
    Fluxonium.H_linear_conjTranspose]
  simp only [Complex.star_def, Complex.conj_ofReal]

theorem SingleChargeTransmon.cos_phi_conjTranspose (t : SingleChargeTransmon) :
    (t.build_cos_phi_op)ᴴ = t.build_cos_phi_op := by
  ext i j
  simp [SingleChargeTransmon.build_cos_phi_op, Matrix.conjTranspose_apply,
    apply_ite (star : ℂ → ℂ), Complex.star_def, conj_half, mul_add, mul_ite, mul_one,
    mul_zero, add_comm]

theorem SingleChargeTransmon.H_full_charge_conjTranspose (t : SingleChargeTransmon) :
    (t.get_H_full)ᴴ = t.get_H_full := by
  rw [SingleChargeTransmon.get_H_full, Matrix.conjTranspose_sub, Matrix.conjTranspose_smul,
    SingleChargeTransmon.cos_phi_conjTranspose, Matrix.diagonal_conjTranspose]
  congr 1
  · ext i j
    by_cases hij : i = j <;>
      simp [Matrix.diagonal_apply, hij, Pi.star_apply, Complex.star_def, RingHom.map_mul,
        RingHom.map_pow, RingHom.map_sub, Complex.conj_ofReal, Complex.conj_natCast,
        Complex.conj_ofNat]
  · rw [Complex.star_def, Complex.conj_ofReal]

/-- C1: for every valid parameter set, every Hamiltonian matrix returned by
`Fluxonium.get_H_linear`, `Fluxonium.get_H_full` and
`SingleChargeTransmon.get_H_full` is Hermitian, i.e. equal to its own
conjugate transpose (exactly, in the real-arithmetic model). -/
theorem hamiltonians_hermitian (f : Fluxonium) (t : SingleChargeTransmon) :
    (f.get_H_linear)ᴴ = f.get_H_linear ∧
    (f.get_H_full)ᴴ = f.get_H_full ∧
    (t.get_H_full)ᴴ = t.get_H_full :=
  ⟨Fluxonium.H_linear_conjTranspose f, Fluxonium.H_full_conjTranspose f,
    SingleChargeTransmon.H_full_charge_conjTranspose t⟩

/-- C2: `SingleChargeTransmon.get_H_linear` always fails and never returns a
Hamiltonian; however, the error it fails with is a `TypeError` (the
`NotImplemented` sentinel is called as if it were an exception class), not the
`NotImplementedError` (unsupported-operation error) that the claim and the
code's own message intend. -/
theorem get_H_linear_always_typeError (t : SingleChargeTransmon) :
    t.get_H_linear = Except.error PyError.typeError ∧
    PyError.typeError ≠ PyError.notImplementedError :=
  ⟨rfl, by decide⟩

/-- C3: `common_ops` fails with the precondition (assertion) error exactly when
`N > 2 * N_max_charge + 1`, and succeeds whenever `N ≤ 2 * N_max_charge + 1`. -/
theorem common_ops_assertion (t : SingleChargeTransmon) :
    (2 * t.N_max_charge + 1 < t.N →
      t.common_ops = Except.error PyError.assertionError) ∧
    (t.N ≤ 2 * t.N_max_charge + 1 → ∃ ops, t.common_ops = Except.ok ops) := by
  constructor
  · intro h
    simp [SingleChargeTransmon.common_ops, Nat.not_le.mpr h]
  · intro h
    exact ⟨⟨t.build_n_op, t.build_cos_phi_op, t.build_cos_phi_2_op, t.build_sin_phi_2_op⟩,
      by simp [SingleChargeTransmon.common_ops, h]⟩

/-- Witness for C3 at `sampleBad` (`N = 5`, `N_max_charge = 1`) and
`sampleGood` (`N = 3`, `N_max_charge = 1`). -/
theorem common_ops_assertion_witness :
    sampleBad.common_ops = Except.error PyError.assertionError ∧
    ∃ ops, sampleGood.common_ops = Except.ok ops :=
  ⟨(common_ops_assertion sampleBad).1 (by norm_num [sampleBad]),
    (common_ops_assertion sampleGood).2 (by norm_num [sampleGood])⟩

/-- C4: whenever `N ≤ 2 * N_max_charge + 1`, `common_ops()` succeeds and its
`"n"` operator is exactly the diagonal matrix with integer entries
`-N_max_charge, …, N_max_charge` (entry `i - N_max_charge` at index `i`) on
the diagonal of a `(2 * N_max_charge + 1)`-dimensional square matrix. -/
theorem common_ops_n_diagonal (t : SingleChargeTransmon)
    (h : t.N ≤ 2 * t.N_max_charge + 1) :
    ∃ ops, t.common_ops = Except.ok ops ∧
      ∀ i j : Fin (2 * t.N_max_charge + 1),
        ops.n i j = if i = j then (((i : ℕ) : ℂ) - (t.N_max_charge : ℂ)) else 0 := by
  have hko : t.common_ops =
      Except.ok ⟨t.build_n_op, t.build_cos_phi_op, t.build_cos_phi_2_op,
        t.build_sin_phi_2_op⟩ := by
    simp [SingleChargeTransmon.common_ops, h]
  refine ⟨_, hko, ?_⟩
  intro i j
  by_cases hij : i = j <;>
    simp [SingleChargeTransmon.build_n_op, Matrix.diagonal_apply, hij]

/-- Witness for C4 at `sampleGood` (`N = 3`, `N_max_charge = 1`). -/
theorem common_ops_n_diagonal_witness :
    ∃ ops, sampleGood.common_ops = Except.ok ops ∧
      ∀ i j : Fin (2 * sampleGood.N_max_charge + 1),
        ops.n i j =
          if i = j then (((i : ℕ) : ℂ) - (sampleGood.N_max_charge : ℂ)) else 0 :=
  common_ops_n_diagonal sampleGood (by norm_num [sampleGood])

/-- C5: `get_H_linear()` is `ω (a_dag a + ½ id)` with `ω = √(8 Ec El)`, and
`get_H_full()` is `get_H_linear()` minus
`Ej (cosm(φ) cos(2π φ_ext) + sinm(φ) sin(2π φ_ext))`, where `cosm`/`sinm` are
matrix trigonometric functions of the full (not halved) flux operator
`φ = phi_zpf (a + a_dag)`. -/
theorem fluxonium_H_formulas (f : Fluxonium) :
    f.get_H_linear = ((Real.sqrt (8 * f.Ec * f.El) : ℝ) : ℂ) •
      (jqt.create f.N_pre_diag * jqt.destroy f.N_pre_diag
        + ((0.5 : ℂ)) • (1 : Matrix (Fin f.N_pre_diag) (Fin f.N_pre_diag) ℂ)) ∧
    f.get_H_full = f.get_H_linear - ((f.Ej : ℝ) : ℂ) •
      (((Real.cos (2 * Real.pi * f.phi_ext) : ℝ) : ℂ) •
          jqt.cosm (((f.phi_zpf : ℝ) : ℂ) •
            (jqt.destroy f.N_pre_diag + jqt.create f.N_pre_diag))
        + ((Real.sin (2 * Real.pi * f.phi_ext) : ℝ) : ℂ) •
          jqt.sinm (((f.phi_zpf : ℝ) : ℂ) •
            (jqt.destroy f.N_pre_diag + jqt.create f.N_pre_diag))) := by
  constructor
  · rfl
  · simp only [Fluxonium.get_H_full, Fluxonium.common_ops_phi]
    norm_num

/-- C7: `potential(phi)` is `0.5 El (2π phi)²` for the `linear` selector,
`0.5 El (2π phi)² - Ej cos(2π (phi - phi_ext))` for the `full` selector, and
nothing (no explicit error) for any other selector value; in particular
`potential(0)` is `0` for `linear` and `-Ej cos(-2π phi_ext)` for `full`. -/
theorem potential_cases (f : Fluxonium) (phi : ℝ) :
    (f.hamiltonian = HamiltonianTypes.linear →
      f.potential phi = some (0.5 * f.El * (2 * Real.pi * phi) ^ 2)) ∧
    (f.hamiltonian = HamiltonianTypes.full →
      f.potential phi = some (0.5 * f.El * (2 * Real.pi * phi) ^ 2
        - f.Ej * Real.cos (2 * Real.pi * (phi - f.phi_ext)))) ∧
    (f.hamiltonian ≠ HamiltonianTypes.linear → f.hamiltonian ≠ HamiltonianTypes.full →
      f.potential phi = none) ∧
    (f.hamiltonian = HamiltonianTypes.linear → f.potential 0 = some 0) ∧
    (f.hamiltonian = HamiltonianTypes.full →
      f.potential 0 = some (-f.Ej * Real.cos (-(2 * Real.pi * f.phi_ext)))) := by
  refine ⟨?_, ?_, ?_, ?_, ?_⟩
  · intro h
    simp [Fluxonium.potential, h]
  · intro h
    simp [Fluxonium.potential, h]
    ring_nf
  · intro h1 h2
    simp [Fluxonium.potential, h1, h2]
  · intro h
    simp [Fluxonium.potential, h]
  · intro h
    simp [Fluxonium.potential, h]
    ring_nf
    exact Or.inl trivial

/-- Witness for C7 at `sampleFlux` (selector `linear`) and `sampleFluxFull`
(selector `full`), both at flux point `0`. -/
theorem potential_cases_witness :
    sampleFlux.potential 0 = some 0 ∧
    sampleFluxFull.potential 0 =
      some (-sampleFluxFull.Ej * Real.cos (-(2 * Real.pi * sampleFluxFull.phi_ext))) :=
  ⟨(potential_cases sampleFlux 0).2.2.2.1 rfl,
    (potential_cases sampleFluxFull 0).2.2.2.2 rfl⟩

/-- C8: `n_zpf()` equals `(El / (32 Ec)) ^ 0.25` and `phi_zpf()` equals
`(2 Ec / El) ^ 0.25`; in particular with `Ec = 1`, `El = 4`, `phi_zpf()`
equals `(2·1/4) ^ 0.25` and `n_zpf()` equals `(4/32) ^ 0.25`. -/
theorem zpf_formulas (f : Fluxonium) (hEc : 0 < f.Ec) (hEl : 0 < f.El) :
    f.n_zpf = (f.El / (32 * f.Ec)) ^ ((0.25 : ℝ)) ∧
    f.phi_zpf = (2 * f.Ec / f.El) ^ ((0.25 : ℝ)) ∧
    (f.Ec = 1 → f.El = 4 →
      f.phi_zpf = ((2 * 1 / 4 : ℝ)) ^ ((0.25 : ℝ)) ∧
      f.n_zpf = ((4 / 32 : ℝ)) ^ ((0.25 : ℝ))) := by
  refine ⟨by norm_num [Fluxonium.n_zpf], rfl, ?_⟩
  intro h1 h2
  constructor
  · rw [Fluxonium.phi_zpf, h1, h2]
  · rw [Fluxonium.n_zpf, h1, h2]
    norm_num

/-- Witness for C8 at `sampleFlux` (`Ec = 1`, `El = 4`). -/
theorem zpf_formulas_witness :
    sampleFlux.n_zpf = (sampleFlux.El / (32 * sampleFlux.Ec)) ^ ((0.25 : ℝ)) ∧
    sampleFlux.phi_zpf = (2 * sampleFlux.Ec / sampleFlux.El) ^ ((0.25 : ℝ)) ∧
    (sampleFlux.Ec = 1 → sampleFlux.El = 4 →
      sampleFlux.phi_zpf = ((2 * 1 / 4 : ℝ)) ^ ((0.25 : ℝ)) ∧
      sampleFlux.n_zpf = ((4 / 32 : ℝ)) ^ ((0.25 : ℝ))) :=
  zpf_formulas sampleFlux (by norm_num [sampleFlux]) (by norm_num [sampleFlux])

/-- C10: for positive `Ec` and `El`, `n_zpf() * phi_zpf()` equals exactly
`1 / 2`, independent of the parameter values. -/
theorem zpf_product (f : Fluxonium) (hEc : 0 < f.Ec) (hEl : 0 < f.El) :
    f.n_zpf * f.phi_zpf = 1 / 2 := by
  have hEc' : f.Ec ≠ 0 := ne_of_gt hEc
  have hEl' : f.El ≠ 0 := ne_of_gt hEl
  rw [Fluxonium.n_zpf, Fluxonium.phi_zpf,
    ← Real.mul_rpow (by positivity) (by positivity)]
  have h : f.El / (32.0 * f.Ec) * (2 * f.Ec / f.El) = (1 : ℝ) / 16 := by
    field_simp
    ring
  rw [h]
  have h2 : ((1 : ℝ) / 16) = ((1 : ℝ) / 2) ^ ((4 : ℕ)) := by norm_num
  rw [h2, ← Real.rpow_natCast ((1 : ℝ) / 2) 4, ← Real.rpow_mul (by norm_num)]
  norm_num

/-- Witness for C10 at `sampleFlux` (`Ec = 1`, `El = 4`). -/
theorem zpf_product_witness : sampleFlux.n_zpf * sampleFlux.phi_zpf = 1 / 2 :=
  zpf_product sampleFlux (by norm_num [sampleFlux]) (by norm_num [sampleFlux])

/-- C6: `get_H_full()` is the diagonal matrix with entries `Ec (n - 2 ng)²`
for `n = -N_max_charge .. N_max_charge`, minus `Ej` times the `cos(φ)`
operator, which couples charge states two apart with weight `1/2`; for
`N_max_charge = 1` the `cos(φ)` operator is the `3 × 3` matrix with `0.5` at
positions `(0, 2)` and `(2, 0)` and zero elsewhere. -/
theorem transmon_H_full_formula :
    (∀ t : SingleChargeTransmon, ∀ i j : Fin (2 * t.N_max_charge + 1),
      t.get_H_full i j =
        (if i = j then
          ((t.Ec : ℂ)) * ((((i : ℕ) : ℂ) - (t.N_max_charge : ℂ)) - 2 * ((t.ng : ℂ))) ^ 2
        else 0)
        - ((t.Ej : ℂ)) *
          (if (i : ℕ) + 2 = (j : ℕ) ∨ (j : ℕ) + 2 = (i : ℕ) then (1 / 2 : ℂ) else 0)) ∧
    (∀ (N : ℕ) (Ec Ej ng : ℝ)
        (vecs : Matrix (Fin (2 * 1 + 1)) (Fin (2 * 1 + 1)) ℂ),
      ∀ i j : Fin (2 * 1 + 1),
        (SingleChargeTransmon.mk N 1 Ec Ej ng vecs).build_cos_phi_op i j =
          if (i = 0 ∧ j = 2) ∨ (i = 2 ∧ j = 0) then (0.5 : ℂ) else 0) := by
  constructor
  · intro t i j
    rw [SingleChargeTransmon.get_H_full]
    simp only [Matrix.sub_apply, Matrix.smul_apply, Matrix.diagonal_apply,
      SingleChargeTransmon.build_cos_phi_op, Matrix.add_apply, Matrix.of_apply,
      smul_eq_mul]
    by_cases h1 : (i : ℕ) + 2 = (j : ℕ) <;> by_cases h2 : (j : ℕ) + 2 = (i : ℕ)
    · omega
    · simp [h1, h2]
      norm_num
    · simp [h1, h2]
      norm_num
    · simp [h1, h2]
  · intro N Ec Ej ng vecs i j
    fin_cases i <;> fin_cases j <;>
      norm_num [SingleChargeTransmon.build_cos_phi_op, Matrix.smul_apply,
        Matrix.add_apply, Matrix.of_apply, Fin.ext_iff]

/-- C9: when the cached eigenvector matrix has orthonormal columns and the
truncation is valid, projecting the identity operator through
`get_op_in_H_eigenbasis` yields exactly the `N × N` identity matrix. -/
theorem eigenbasis_identity (t : SingleChargeTransmon)
    (hN : t.N ≤ 2 * t.N_max_charge + 1) (h : t.vecsᴴ * t.vecs = 1) :
    t.get_op_in_H_eigenbasis 1 = 1 ∧ t.truncDim = t.N := by
  refine ⟨?_, min_eq_left hN⟩
  simp only [SingleChargeTransmon.get_op_in_H_eigenbasis]
  rw [Matrix.one_mul, Matrix.conjTranspose_submatrix]
  have hmul := Matrix.submatrix_mul_equiv t.vecsᴴ t.vecs
    (Fin.castLE (min_le_right t.N (2 * t.N_max_charge + 1))) (Equiv.refl _)
    (Fin.castLE (min_le_right t.N (2 * t.N_max_charge + 1)))
  simp only [Equiv.coe_refl] at hmul
  rw [hmul, h, Matrix.submatrix_one _ (Fin.castLE_injective _)]

/-- Witness for C9 at `sampleTrivial`, whose cached eigenvector matrix is the
identity. -/
theorem eigenbasis_identity_witness :
    sampleTrivial.get_op_in_H_eigenbasis 1 = 1 ∧
    sampleTrivial.truncDim = sampleTrivial.N :=
  eigenbasis_identity sampleTrivial (by norm_num [sampleTrivial])
    (by simp [sampleTrivial])
